import Mathlib

/-!
# Embedillo-Sentry: gesture unlock engine

A shallow embedding of `main.cpp` (the matching engine, the trimming routine, one
pass of the `rotationThread` loop and one pass of the `touchThread` loop) and of
`motion.cpp` (calibration and the calibrated read), together with theorems about it.
The `int16_t` values of `motion.cpp` are integers, reduced modulo 2^16 by `toInt16`
wherever the source stores into an `int16_t`.

Numbers: the C++ `float` samples are embedded as elements of a linearly ordered
field `α` (exact arithmetic, no rounding, no overflow).  The only places where IEEE
special values can arise from finite inputs under exact arithmetic are the `sqrt`
call and the final division of `calcCorrelation`; their results live in
`FloatVal α`, which adds NaN and the two infinities.  The library function `sqrt`
is a parameter of the embedding.
-/

namespace Sentry

/-! ## Data model -/

/-- The C++ `array<float, 3>`: one triaxial value. -/
structure Vec3 (β : Type) where
  x : β
  y : β
  z : β
  deriving DecidableEq, Repr

/-- Indexing `arr[i]` of an `array<float, 3>` (indices 0, 1, 2). -/
def Vec3.get {β : Type} (v : Vec3 β) (i : Nat) : β :=
  match i with
  | 0 => v.x
  | 1 => v.y
  | _ => v.z

/-- A `float` result that may be an IEEE special value. -/
inductive FloatVal (α : Type) where
  | fin (v : α)
  | nan
  | posInf
  | negInf
  deriving DecidableEq, Repr

/-- The C++ comparison `r > t` of a possibly special float against a finite one:
false for NaN and for minus infinity, true for plus infinity. -/
def FloatVal.gt {α : Type} [LinearOrderedField α] (r : FloatVal α) (t : α) : Bool :=
  match r with
  | FloatVal.fin v => decide (t < v)
  | FloatVal.nan => false
  | FloatVal.posInf => true
  | FloatVal.negInf => false

/-- The C++ `sqrt` on a finite argument: NaN below zero, otherwise the root given
by the parameter `sqrt`. -/
def fsqrt {α : Type} [LinearOrderedField α] (sqrt : α → α) (v : α) : FloatVal α :=
  if v < 0 then FloatVal.nan else FloatVal.fin (sqrt v)

/-- The C++ division of a finite numerator by a possibly special denominator
that is NaN or a non-negative finite value (the result of `sqrt`). -/
def fdiv {α : Type} [LinearOrderedField α] (num : α) (den : FloatVal α) : FloatVal α :=
  match den with
  | FloatVal.fin d =>
      if d = 0 then
        (if num = 0 then FloatVal.nan
         else if 0 < num then FloatVal.posInf else FloatVal.negInf)
      else FloatVal.fin (num / d)
  | FloatVal.nan => FloatVal.nan
  | FloatVal.posInf => FloatVal.fin 0
  | FloatVal.negInf => FloatVal.fin 0

/-! ## Constants of `main.cpp` -/

/-- Event flag `KEY_FLAG`. -/
def KEY_FLAG : Nat := 1
/-- Event flag `UNLOCK_FLAG`. -/
def UNLOCK_FLAG : Nat := 2
/-- Event flag `DATA_READY_FLAG`. -/
def DATA_READY_FLAG : Nat := 8

/-- The constant `CORRELATION_THRESHOLD` (0.3f): the exact value of the binary32
number written `0.3f`, which is 5033165 / 2^24 and lies a little above 3/10. -/
def CORRELATION_THRESHOLD {α : Type} [LinearOrderedField α] : α := 5033165 / 16777216

/-! ## `calcCorrelation` -/

/-- The five accumulators of `calcCorrelation`. -/
structure Sums (α : Type) where
  sum_a : α
  sum_b : α
  sum_ab : α
  sq_sum_a : α
  sq_sum_b : α

/-- One pass of the body of the `for` loop of `calcCorrelation`, at `a[i]`, `b[i]`. -/
def sumStep {α : Type} [LinearOrderedField α] (s : Sums α) (p : α × α) : Sums α :=
  { sum_a := s.sum_a + p.1
    sum_b := s.sum_b + p.2
    sum_ab := s.sum_ab + p.1 * p.2
    sq_sum_a := s.sq_sum_a + p.1 * p.1
    sq_sum_b := s.sq_sum_b + p.2 * p.2 }

/-- The `for` loop of `calcCorrelation` over `i = 0 .. a.size() - 1`; it is reached
only with `a.size() == b.size()`. -/
def sumLoop {α : Type} [LinearOrderedField α] (a b : List α) : Sums α :=
  (a.zip b).foldl sumStep ⟨0, 0, 0, 0, 0⟩

/-- The function `calcCorrelation`: the global `calcError` is passed in and out.
Returns the coefficient and the new value of `calcError`. -/
def calcCorrelation {α : Type} [LinearOrderedField α] (sqrt : α → α)
    (calcError : Int) (a b : List α) : FloatVal α × Int :=
  if a.length ≠ b.length then
    (FloatVal.fin 0, -1)
  else
    let s := sumLoop a b
    let n : α := (a.length : α)
    let numerator := n * s.sum_ab - s.sum_a * s.sum_b
    let denominator :=
      fsqrt sqrt ((n * s.sq_sum_a - s.sum_a * s.sum_a) * (n * s.sq_sum_b - s.sum_b * s.sum_b))
    (fdiv numerator denominator, calcError)

/-- A sequence is non-constant when it holds two different values. -/
def nonConstant {α : Type} (a : List α) : Prop := ∃ u ∈ a, ∃ v ∈ a, u ≠ v

/-! ## `calcCorrelationVecs` -/

/-- The C++ `vector::resize(n, v)`: cut to `n` elements, or pad with `v` up to `n`. -/
def resize {β : Type} (l : List β) (n : Nat) (v : β) : List β :=
  if n ≤ l.length then l.take n else l ++ List.replicate (n - l.length) v

/-- The two `push_back` loops of `calcCorrelationVecs`: the projection on axis `i`. -/
def axisOf {α : Type} (vec : List (Vec3 α)) (i : Nat) : List α :=
  vec.map (fun arr => arr.get i)

/-- The body of the `for (int i ...)` loop of `calcCorrelationVecs` for one axis. -/
def corrAxis {α : Type} [LinearOrderedField α] (sqrt : α → α) (calcError : Int)
    (vec1 vec2 : List (Vec3 α)) (i : Nat) : FloatVal α × Int :=
  let a := axisOf vec1 i
  let b := axisOf vec2 i
  if a.length > b.length then
    calcCorrelation sqrt calcError (resize a b.length 0) b
  else if b.length > a.length then
    calcCorrelation sqrt calcError a (resize b a.length 0)
  else
    calcCorrelation sqrt calcError a b

/-- The function `calcCorrelationVecs`: axes 0, 1, 2 in turn, threading `calcError`. -/
def calcCorrelationVecs {α : Type} [LinearOrderedField α] (sqrt : α → α) (calcError : Int)
    (vec1 vec2 : List (Vec3 α)) : Vec3 (FloatVal α) × Int :=
  let r0 := corrAxis sqrt calcError vec1 vec2 0
  let r1 := corrAxis sqrt r0.2 vec1 vec2 1
  let r2 := corrAxis sqrt r1.2 vec1 vec2 2
  (⟨r0.1, r1.1, r2.1⟩, r2.2)

/-! ## `removeZeroData` -/

/-- The local `threshold` of `removeZeroData` (0.00001), taken as the exact 1/100000. -/
def zeroThreshold {α : Type} [LinearOrderedField α] : α := 1 / 100000

/-- The test repeated in both `while` loops of `removeZeroData`:
`fabs(p[0]) <= threshold && fabs(p[1]) <= threshold && fabs(p[2]) <= threshold`. -/
def nearZero {α : Type} [LinearOrderedField α] (p : Vec3 α) : Bool :=
  decide (|p.x| ≤ zeroThreshold) && decide (|p.y| ≤ zeroThreshold) &&
    decide (|p.z| ≤ zeroThreshold)

/-- Dereference `*ptr` of an iterator at index `i` (only used at valid indices). -/
def deref {α : Type} [LinearOrderedField α] (data : List (Vec3 α)) (i : Nat) : Vec3 α :=
  data.getD i ⟨0, 0, 0⟩

/-- The first `while` loop of `removeZeroData`: `startPtr` moves right from index `i`
while it is not `data.end()` and points at a near-zero sample.  `fuel` bounds the
number of passes; `data.length` passes always suffice (`scanFwd_exit`). -/
def scanFwd {α : Type} [LinearOrderedField α] (data : List (Vec3 α)) : Nat → Nat → Nat
  | 0, i => i
  | fuel + 1, i =>
      if i ≠ data.length ∧ nearZero (deref data i) = true then scanFwd data fuel (i + 1)
      else i

/-- The second `while` loop of `removeZeroData`: `startPtr` moves left from index `i`
while it is not `data.begin()` and points at a near-zero sample. -/
def scanBack {α : Type} [LinearOrderedField α] (data : List (Vec3 α)) : Nat → Nat
  | 0 => 0
  | i + 1 => if nearZero (deref data (i + 1)) = true then scanBack data i else i + 1

/-- The state of the copy loop of `removeZeroData`: the vector and the two moving
iterators `replacePtr` and `leftPtr`. -/
structure CopyState (α : Type) where
  data : List (Vec3 α)
  replacePtr : Nat
  leftPtr : Nat

/-- The `for` loop of `removeZeroData`:
`for (; replacePtr != leftPtr && leftPtr <= rightPtr; replacePtr++, leftPtr++) *replacePtr = *leftPtr;`
`fuel` bounds the number of passes; `data.length` passes always suffice
(`copyLoop_exit`). -/
def copyLoop {α : Type} [LinearOrderedField α] (rightPtr : Nat) :
    Nat → CopyState α → CopyState α
  | 0, st => st
  | fuel + 1, st =>
      if st.replacePtr ≠ st.leftPtr ∧ st.leftPtr ≤ rightPtr then
        copyLoop rightPtr fuel
          { data := st.data.set st.replacePtr (deref st.data st.leftPtr)
            replacePtr := st.replacePtr + 1
            leftPtr := st.leftPtr + 1 }
      else st

/-- The function `removeZeroData`; the in-place vector is passed in and returned.
`erase(p, data.end())` keeps the elements before index `p`. -/
def removeZeroData {α : Type} [LinearOrderedField α] (data : List (Vec3 α)) :
    List (Vec3 α) :=
  let startPtr := scanFwd data data.length 0
  if startPtr = data.length then
    data
  else
    let leftPtr := startPtr
    let rightPtr := scanBack data (data.length - 1)
    let st := copyLoop rightPtr data.length ⟨data, 0, leftPtr⟩
    if st.leftPtr > rightPtr then
      st.data.take st.replacePtr
    else
      st.data.take (rightPtr + 1)

/-! ## One pass of `rotationThread` and the start-up code of `main` -/

/-- The globals of `main.cpp` that the gesture logic reads and writes, and the last
text shown on the status line (`dispBuf`, `txt0`, `txt1`). -/
structure SysState (α : Type) where
  gestureKey : List (Vec3 α)
  unlockRecord : List (Vec3 α)
  calcError : Int
  redLed : Nat
  greenLed : Nat
  status : String

/-- The globals as initialised at program start, before `main` runs. -/
def bootState {α : Type} : SysState α :=
  { gestureKey := [], unlockRecord := [], calcError := 0, redLed := 0, greenLed := 0,
    status := "" }

/-- The block "Setup initial LED and text state" of `main`. -/
def main {α : Type} (st : SysState α) : SysState α :=
  if st.gestureKey.isEmpty then
    { st with redLed := 0, greenLed := 1, status := "NO KEY RECORDED" }
  else
    { st with redLed := 1, greenLed := 0, status := "LOCKED" }

/-- The counting loop of the unlock branch together with the `calcError` test before
it: the value of `unlockCount` when `if (unlockCount == 3)` is reached. -/
def unlockCount {α : Type} [LinearOrderedField α] (correlationResult : Vec3 (FloatVal α))
    (calcError : Int) : Nat :=
  if calcError ≠ 0 then 0
  else
    (List.range 3).foldl
      (fun cnt i =>
        if (correlationResult.get i).gt CORRELATION_THRESHOLD = true then cnt + 1 else cnt)
      0

/-- The branch of `rotationThread` taken for `eventReceived & KEY_FLAG`. -/
def keyBranch {α : Type} (st : SysState α) (tempKey : List (Vec3 α)) : SysState α :=
  if st.gestureKey.isEmpty then
    { st with gestureKey := tempKey, redLed := 1, greenLed := 0, status := "Key saved..." }
  else
    { st with status := "Key Already Exists!" }

/-- The tail of the unlock branch once `calcCorrelationVecs` has returned
`correlationResult` (first component of `r`) and left `calcError` (second component):
the count and the `if (unlockCount == 3)` statement. -/
def unlockOutcome {α : Type} [LinearOrderedField α] (st : SysState α)
    (r : Vec3 (FloatVal α) × Int) : SysState α :=
  if unlockCount r.1 r.2 = 3 then
    { st with calcError := r.2, unlockRecord := [], greenLed := 1, redLed := 0,
              status := "UNLOCK SUCCESS" }
  else
    { st with calcError := r.2, unlockRecord := [], greenLed := 0, redLed := 1,
              status := "UNLOCK FAILED" }

/-- The branch of `rotationThread` taken for `eventReceived & UNLOCK_FLAG`. -/
def unlockBranch {α : Type} [LinearOrderedField α] (sqrt : α → α) (st : SysState α)
    (tempKey : List (Vec3 α)) : SysState α :=
  let unlockRecord := tempKey
  if st.gestureKey.isEmpty then
    { st with unlockRecord := [], greenLed := 1, redLed := 0, status := "No key to match." }
  else
    unlockOutcome st (calcCorrelationVecs sqrt st.calcError st.gestureKey unlockRecord)

/-- One pass of the `while (1)` loop of `rotationThread`.  `eventReceived` is the
value returned by `wait_any`, `recorded` is the content of `tempKey` when the
five-second recording loop ends (the samples read from the sensor). -/
def rotationThread {α : Type} [LinearOrderedField α] (sqrt : α → α) (st : SysState α)
    (eventReceived : Nat) (recorded : List (Vec3 α)) : SysState α :=
  let captured := eventReceived &&& (KEY_FLAG ||| UNLOCK_FLAG) ≠ 0
  let tempKey := if captured then removeZeroData recorded else []
  let st1 := if captured then { st with status := "Recording complete" } else st
  if eventReceived &&& KEY_FLAG ≠ 0 then
    keyBranch st1 tempKey
  else if eventReceived &&& UNLOCK_FLAG ≠ 0 then
    unlockBranch sqrt st1 tempKey
  else
    st1

/-! ## `motion.cpp`: calibration and calibrated reads -/

/-- The conversion of an `int` to `int16_t` (two's complement, modulo 2^16), applied
wherever the source stores into an `int16_t`. -/
def toInt16 (n : Int) : Int := (n + 32768) % 65536 - 32768

/-- The struct `RotationSensor_RawValues` of `motion.h` (three `int16_t` fields). -/
structure RotationSensor_RawValues where
  x_axis_value : Int
  y_axis_value : Int
  z_axis_value : Int
  deriving DecidableEq, Repr

/-- The `int16_t` globals of `motion.cpp`: the three thresholds and the three
zero-rate samples.  They start at zero (static storage). -/
structure MotionState where
  x_axis_threshold : Int
  y_axis_threshold : Int
  z_axis_threshold : Int
  x_axis_sample : Int
  y_axis_sample : Int
  z_axis_sample : Int
  deriving DecidableEq, Repr

/-- The globals of `motion.cpp` at program start. -/
def motionBoot : MotionState := ⟨0, 0, 0, 0, 0, 0⟩

/-- The variables that change inside the `for` loop of `CalibrateRotationSensor`: the
three `int16_t` sums and the three global thresholds. -/
structure CalibLoop where
  sumX : Int
  sumY : Int
  sumZ : Int
  x_axis_threshold : Int
  y_axis_threshold : Int
  z_axis_threshold : Int
  deriving DecidableEq, Repr

/-- One pass of the `for` loop of `CalibrateRotationSensor`; `read i` is what the
call of `RetrieveRotationData` in pass `i` stores in `rawdata`. -/
def calibStep (read : Nat → RotationSensor_RawValues) (s : CalibLoop) (i : Nat) : CalibLoop :=
  let rawdata := read i
  { sumX := toInt16 (s.sumX + rawdata.x_axis_value)
    sumY := toInt16 (s.sumY + rawdata.y_axis_value)
    sumZ := toInt16 (s.sumZ + rawdata.z_axis_value)
    x_axis_threshold := max s.x_axis_threshold rawdata.x_axis_value
    y_axis_threshold := max s.y_axis_threshold rawdata.y_axis_value
    z_axis_threshold := max s.z_axis_threshold rawdata.z_axis_value }

/-- The `for (int i = 0; i < 128; i++)` loop of `CalibrateRotationSensor`, run for
`k` passes from sums zero and the thresholds found in the globals. -/
def calibLoop (st : MotionState) (read : Nat → RotationSensor_RawValues) (k : Nat) :
    CalibLoop :=
  (List.range k).foldl (calibStep read)
    ⟨0, 0, 0, st.x_axis_threshold, st.y_axis_threshold, st.z_axis_threshold⟩

/-- The function `CalibrateRotationSensor`: 128 passes, then the three shifts
`sum >> 7` stored into the zero-rate samples. -/
def CalibrateRotationSensor (st : MotionState) (read : Nat → RotationSensor_RawValues) :
    MotionState :=
  let s := calibLoop st read 128
  { x_axis_threshold := s.x_axis_threshold
    y_axis_threshold := s.y_axis_threshold
    z_axis_threshold := s.z_axis_threshold
    x_axis_sample := toInt16 (s.sumX >>> (7 : Nat))
    y_axis_sample := toInt16 (s.sumY >>> (7 : Nat))
    z_axis_sample := toInt16 (s.sumZ >>> (7 : Nat)) }

/-- One axis of `FetchCalibratedRotationData`: `value -= sample`, then
`if (abs(value) < abs(threshold)) value = 0`. -/
def fetchAxis (value sample threshold : Int) : Int :=
  let value1 := toInt16 (value - sample)
  if |value1| < |threshold| then 0 else value1

/-- The function `FetchCalibratedRotationData`; `raw` is what `RetrieveRotationData`
stored in `*rotation_values`, the result is `*rotation_values` on return. -/
def FetchCalibratedRotationData (st : MotionState) (raw : RotationSensor_RawValues) :
    RotationSensor_RawValues :=
  { x_axis_value := fetchAxis raw.x_axis_value st.x_axis_sample st.x_axis_threshold
    y_axis_value := fetchAxis raw.y_axis_value st.y_axis_sample st.y_axis_threshold
    z_axis_value := fetchAxis raw.z_axis_value st.z_axis_sample st.z_axis_threshold }

/-! ## `touchThread` -/

/-- Button constant `btn1X` (the button labelled "RECORD"). -/
def btn1X : Int := 60
/-- Button constant `btn1Y`. -/
def btn1Y : Int := 80
/-- Button constant `btn1Width`. -/
def btn1Width : Int := 120
/-- Button constant `btn1Height`. -/
def btn1Height : Int := 50
/-- Button constant `btn1Label`. -/
def btn1Label : String := "RECORD"
/-- Button constant `btn2X` (the button labelled "UNLOCK"). -/
def btn2X : Int := 60
/-- Button constant `btn2Y`. -/
def btn2Y : Int := 180
/-- Button constant `btn2Width`. -/
def btn2Width : Int := 120
/-- Button constant `btn2Height`. -/
def btn2Height : Int := 50
/-- Button constant `btn2Label`. -/
def btn2Label : String := "UNLOCK"

/-- The function `checkButtonTouch`. -/
def checkButtonTouch (touch_x touch_y button_x button_y button_width button_height : Int) :
    Bool :=
  decide (touch_x ≥ button_x) && decide (touch_x ≤ button_x + button_width) &&
    decide (touch_y ≥ button_y) && decide (touch_y ≤ button_y + button_height)

/-- The fields of `TS_StateTypeDef` that `touchThread` reads. -/
structure TS_StateTypeDef where
  TouchDetected : Nat
  X : Int
  Y : Int
  deriving DecidableEq, Repr

/-- One pass of the `while (1)` loop of `touchThread`: `evtFlags` is the flag word
before the pass, `touchState` is what `GetState` reported; the result is the flag
word after the pass (`evtFlags.set(f)` ors `f` into it). -/
def touchThread (evtFlags : Nat) (touchState : TS_StateTypeDef) : Nat :=
  if touchState.TouchDetected ≠ 0 then
    let touch_x := touchState.X
    let touch_y := touchState.Y
    let flags1 :=
      if checkButtonTouch touch_x touch_y btn2X btn2Y btn1Width btn1Height = true then
        evtFlags ||| KEY_FLAG
      else evtFlags
    if checkButtonTouch touch_x touch_y btn1X btn1Y btn2Width btn2Height = true then
      flags1 ||| UNLOCK_FLAG
    else flags1
  else evtFlags

end Sentry

namespace Sentry

variable {α : Type} [LinearOrderedField α]

/-! ## Facts about the loops of `removeZeroData` -/

theorem deref_append_left (pre rest : List (Vec3 α)) (j : Nat) (h : j < pre.length) :
    deref (pre ++ rest) j = deref pre j := by
  unfold deref
  exact List.getD_append pre rest _ j h

theorem deref_append_right (pre rest : List (Vec3 α)) (k : Nat) :
    deref (pre ++ rest) (pre.length + k) = deref rest k := by
  unfold deref
  rw [List.getD_append_right pre rest _ (pre.length + k) (Nat.le_add_right _ _)]
  simp

theorem deref_mem (l : List (Vec3 α)) (j : Nat) (h : j < l.length) : deref l j ∈ l := by
  unfold deref
  rw [List.getD_eq_getElem l _ h]
  exact List.getElem_mem h

theorem scanFwd_spec (data : List (Vec3 α)) (t : Nat) (ht : t ≤ data.length)
    (hstop : t = data.length ∨ nearZero (deref data t) = false) :
    ∀ (fuel i : Nat), i ≤ t → t - i ≤ fuel →
      (∀ j, i ≤ j → j < t → nearZero (deref data j) = true) →
      scanFwd data fuel i = t := by
  intro fuel
  induction fuel with
  | zero =>
    intro i hi hf _
    simp only [scanFwd]
    omega
  | succ fuel ih =>
    intro i hi hf hnz
    simp only [scanFwd]
    by_cases hit : i = t
    · subst hit
      rcases hstop with h | h
      · simp [h]
      · simp [h]
    · have hlt : i < t := lt_of_le_of_ne hi hit
      have h1 : i ≠ data.length := by omega
      have h2 : nearZero (deref data i) = true := hnz i (le_refl _) hlt
      rw [if_pos ⟨h1, h2⟩]
      exact ih (i + 1) hlt (by omega) (fun j hj hjt => hnz j (by omega) hjt)

theorem scanBack_spec (data : List (Vec3 α)) (r : Nat)
    (hstop : r = 0 ∨ nearZero (deref data r) = false) :
    ∀ (i : Nat), r ≤ i →
      (∀ j, r < j → j ≤ i → nearZero (deref data j) = true) →
      scanBack data i = r := by
  intro i
  induction i with
  | zero =>
    intro hi _
    simp only [scanBack]
    omega
  | succ i ih =>
    intro hi hnz
    simp only [scanBack]
    by_cases hri : r = i + 1
    · subst hri
      rcases hstop with h | h
      · omega
      · simp [h]
    · have h2 : nearZero (deref data (i + 1)) = true := hnz (i + 1) (by omega) (le_refl _)
      rw [if_pos h2]
      exact ih (by omega) (fun j hj hji => hnz j hj (by omega))

theorem copyLoop_spec (rightPtr : Nat) :
    ∀ (fuel : Nat) (st : CopyState α), st.replacePtr < st.leftPtr →
      st.leftPtr ≤ rightPtr + 1 → rightPtr < st.data.length →
      rightPtr + 1 - st.leftPtr ≤ fuel →
      (copyLoop rightPtr fuel st).leftPtr = rightPtr + 1 ∧
      (copyLoop rightPtr fuel st).replacePtr = st.replacePtr + (rightPtr + 1 - st.leftPtr) ∧
      (copyLoop rightPtr fuel st).data.take (copyLoop rightPtr fuel st).replacePtr =
        st.data.take st.replacePtr ++
          (st.data.drop st.leftPtr).take (rightPtr + 1 - st.leftPtr) := by
  intro fuel
  induction fuel with
  | zero =>
    intro st _ h2 _ h4
    have h5 : rightPtr + 1 - st.leftPtr = 0 := by omega
    simp only [copyLoop, h5, List.take_zero, List.append_nil, Nat.add_zero, and_true]
    omega
  | succ fuel ih =>
    intro st h1 h2 h3 h4
    simp only [copyLoop]
    by_cases hle : st.leftPtr ≤ rightPtr
    · rw [if_pos ⟨Nat.ne_of_lt h1, hle⟩]
      have hl : st.leftPtr < st.data.length := by omega
      have hr : st.replacePtr < st.data.length := by omega
      obtain ⟨e1, e2, e3⟩ := ih
        { data := st.data.set st.replacePtr (deref st.data st.leftPtr)
          replacePtr := st.replacePtr + 1
          leftPtr := st.leftPtr + 1 }
        (by simp only; omega) (by simp only; omega)
        (by simp only [List.length_set]; exact h3) (by simp only; omega)
      refine ⟨e1, ?_, ?_⟩
      · rw [e2]; simp only; omega
      · rw [e3]
        simp only
        have hd : deref st.data st.leftPtr = st.data[st.leftPtr] := by
          unfold deref
          exact List.getD_eq_getElem _ _ hl
        have t1 : (st.data.set st.replacePtr (deref st.data st.leftPtr)).take
            (st.replacePtr + 1) = st.data.take st.replacePtr ++ [st.data[st.leftPtr]] := by
          rw [hd]
          apply List.ext_getElem
          · simp only [List.length_take, List.length_set, List.length_append,
              List.length_singleton]
            omega
          · intro n hn1 hn2
            simp only [List.length_take, List.length_set] at hn1
            rw [List.getElem_take, List.getElem_set]
            by_cases hnr : st.replacePtr = n
            · subst hnr
              rw [if_pos rfl, List.getElem_append_right (by simp)]
              simp
            · rw [if_neg hnr, List.getElem_append_left (by simp; omega), List.getElem_take]
        have t2 : (st.data.set st.replacePtr (deref st.data st.leftPtr)).drop
            (st.leftPtr + 1) = st.data.drop (st.leftPtr + 1) :=
          List.drop_set_of_lt _ _ (by omega)
        have t3 : (st.data.drop st.leftPtr).take (rightPtr + 1 - st.leftPtr) =
            st.data[st.leftPtr] ::
              (st.data.drop (st.leftPtr + 1)).take (rightPtr + 1 - (st.leftPtr + 1)) := by
          rw [List.drop_eq_getElem_cons hl]
          have : rightPtr + 1 - st.leftPtr = (rightPtr + 1 - (st.leftPtr + 1)) + 1 := by omega
          rw [this, List.take_succ_cons]
        rw [t1, t2, t3, List.append_assoc, List.singleton_append]
    · have h5 : rightPtr + 1 - st.leftPtr = 0 := by omega
      rw [if_neg (fun h => hle h.2)]
      simp only [h5, List.take_zero, List.append_nil, Nat.add_zero, and_true]
      omega

theorem copyLoop_idle (rightPtr fuel : Nat) (st : CopyState α)
    (h : st.replacePtr = st.leftPtr) : copyLoop rightPtr fuel st = st := by
  cases fuel with
  | zero => rfl
  | succ fuel =>
    simp only [copyLoop]
    rw [if_neg (fun hc => hc.1 h)]

theorem scanBack_le (data : List (Vec3 α)) : ∀ i : Nat, scanBack data i ≤ i := by
  intro i
  induction i with
  | zero => simp [scanBack]
  | succ i ih =>
    simp only [scanBack]
    by_cases h : nearZero (deref data (i + 1)) = true
    · rw [if_pos h]; omega
    · rw [if_neg h]

/-- The first loop of `removeZeroData` stops because its condition fails, not because
the fuel ran out. -/
theorem scanFwd_exit (data : List (Vec3 α)) :
    ∀ (fuel i : Nat), i ≤ data.length → data.length - i ≤ fuel →
      ¬ (scanFwd data fuel i ≠ data.length ∧
          nearZero (deref data (scanFwd data fuel i)) = true) := by
  intro fuel
  induction fuel with
  | zero =>
    intro i hi hf
    simp only [scanFwd]
    intro hc
    exact hc.1 (by omega)
  | succ fuel ih =>
    intro i hi hf
    simp only [scanFwd]
    by_cases hc : i ≠ data.length ∧ nearZero (deref data i) = true
    · rw [if_pos hc]
      exact ih (i + 1) (by have := hc.1; omega) (by omega)
    · rw [if_neg hc]
      exact hc

/-- The copy loop of `removeZeroData` stops because its condition fails, not because
the fuel ran out. -/
theorem copyLoop_exit (rightPtr : Nat) :
    ∀ (fuel : Nat) (st : CopyState α), rightPtr + 1 - st.leftPtr ≤ fuel →
      ¬ ((copyLoop rightPtr fuel st).replacePtr ≠ (copyLoop rightPtr fuel st).leftPtr ∧
          (copyLoop rightPtr fuel st).leftPtr ≤ rightPtr) := by
  intro fuel
  induction fuel with
  | zero =>
    intro st hf
    simp only [copyLoop]
    intro hc
    have := hc.2
    omega
  | succ fuel ih =>
    intro st hf
    simp only [copyLoop]
    by_cases hc : st.replacePtr ≠ st.leftPtr ∧ st.leftPtr ≤ rightPtr
    · rw [if_pos hc]
      exact ih _ (by simp only; omega)
    · rw [if_neg hc]
      exact hc

/-- Both fuel-bounded loops, as `removeZeroData` calls them, end by their own
condition. -/
theorem removeZeroData_loops_exit (data : List (Vec3 α)) :
    ¬ (scanFwd data data.length 0 ≠ data.length ∧
        nearZero (deref data (scanFwd data data.length 0)) = true) ∧
    ¬ ((copyLoop (scanBack data (data.length - 1)) data.length
          ⟨data, 0, scanFwd data data.length 0⟩).replacePtr ≠
        (copyLoop (scanBack data (data.length - 1)) data.length
          ⟨data, 0, scanFwd data data.length 0⟩).leftPtr ∧
        (copyLoop (scanBack data (data.length - 1)) data.length
          ⟨data, 0, scanFwd data data.length 0⟩).leftPtr ≤ scanBack data (data.length - 1)) := by
  refine ⟨scanFwd_exit data _ 0 (Nat.zero_le _) (by omega), ?_⟩
  by_cases hz : data.length = 0
  · rw [hz]
    simp [copyLoop, scanFwd, scanBack]
  · apply copyLoop_exit
    have := scanBack_le data (data.length - 1)
    simp only
    omega

/-- A run `f :: rest = init ++ [l]` whose ends are not near-zero, placed between
near-zero samples, is what `removeZeroData` leaves. -/
theorem removeZeroData_run (pre mid post rest init : List (Vec3 α)) (f l : Vec3 α)
    (hf : mid = f :: rest) (hl : mid = init ++ [l])
    (hpre : ∀ s ∈ pre, nearZero s = true) (hpost : ∀ s ∈ post, nearZero s = true)
    (hfn : nearZero f = false) (hln : nearZero l = false) :
    removeZeroData (pre ++ mid ++ post) = mid := by
  have hlen : (pre ++ mid ++ post).length = pre.length + mid.length + post.length := by
    simp only [List.length_append]
  have hmid : mid.length = init.length + 1 := by rw [hl]; simp
  have hmid2 : mid.length = rest.length + 1 := by rw [hf]; simp
  have hL : scanFwd (pre ++ mid ++ post) (pre ++ mid ++ post).length 0 = pre.length := by
    apply scanFwd_spec (pre ++ mid ++ post) pre.length (by omega) _ _ 0 (Nat.zero_le _)
      (by omega)
    · intro j _ hj
      rw [List.append_assoc, deref_append_left _ _ _ hj]
      exact hpre _ (deref_mem _ _ hj)
    · right
      have := deref_append_right pre (mid ++ post) 0
      rw [Nat.add_zero] at this
      rw [List.append_assoc, this, hf]
      simpa [deref] using hfn
  have hR : scanBack (pre ++ mid ++ post) ((pre ++ mid ++ post).length - 1) =
      pre.length + init.length := by
    apply scanBack_spec (pre ++ mid ++ post) (pre.length + init.length) _ _ (by omega)
    · intro j hj1 hj2
      have hk : j = (pre ++ mid).length + (j - (pre ++ mid).length) := by
        simp only [List.length_append]; omega
      have hk2 : j - (pre ++ mid).length < post.length := by
        simp only [List.length_append]; omega
      rw [hk, deref_append_right]
      exact hpost _ (deref_mem _ _ hk2)
    · right
      have := deref_append_right (pre ++ init) ([l] ++ post) 0
      rw [Nat.add_zero, List.length_append] at this
      rw [hl]
      have e : pre ++ (init ++ [l]) ++ post = pre ++ init ++ ([l] ++ post) := by
        simp only [List.append_assoc]
      rw [e, this]
      simpa [deref] using hln
  unfold removeZeroData
  simp only [hL, hR]
  rw [if_neg (by omega)]
  by_cases hz : pre.length = 0
  · have hp : pre = [] := List.length_eq_zero.mp hz
    subst hp
    rw [copyLoop_idle _ _ _ (by simp)]
    simp only [List.length_nil, Nat.zero_add, gt_iff_lt, Nat.not_lt_zero, if_false,
      List.nil_append]
    rw [← hmid, List.take_left']
    rfl
  · obtain ⟨e1, e2, e3⟩ := copyLoop_spec (pre.length + init.length)
      (pre ++ mid ++ post).length ⟨pre ++ mid ++ post, 0, pre.length⟩
      (by simp only; omega) (by simp only; omega) (by simp only; omega)
      (by simp only; omega)
    rw [if_pos (by rw [e1]; omega), e3]
    simp only [List.take_zero, List.nil_append]
    have hk : pre.length + init.length + 1 - pre.length = mid.length := by omega
    rw [hk, List.append_assoc, List.drop_left', List.take_left']
    · rfl
    · rfl

/-- When every sample is near-zero the early `return` leaves the vector as it is. -/
theorem removeZeroData_allNearZero (data : List (Vec3 α))
    (h : ∀ s ∈ data, nearZero s = true) : removeZeroData data = data := by
  have hL : scanFwd data data.length 0 = data.length :=
    scanFwd_spec data data.length (le_refl _) (Or.inl rfl) _ 0 (Nat.zero_le _) (by omega)
      (fun j _ hj => h _ (deref_mem _ _ hj))
  unfold removeZeroData
  simp only [hL, if_true]

theorem exists_first_notNearZero (data : List (Vec3 α))
    (h : ∃ s ∈ data, nearZero s = false) :
    ∃ pre f rest, data = pre ++ f :: rest ∧ (∀ s ∈ pre, nearZero s = true) ∧
      nearZero f = false := by
  induction data with
  | nil => simp at h
  | cons a t ih =>
    by_cases ha : nearZero a = false
    · exact ⟨[], a, t, rfl, by simp, ha⟩
    · have ha2 : nearZero a = true := by simpa using ha
      obtain ⟨s, hs, hsn⟩ := h
      have hst : s ∈ t := by
        rcases List.mem_cons.mp hs with e | e
        · subst e; rw [ha2] at hsn; cases hsn
        · exact e
      obtain ⟨pre, f, rest, e, hp, hfn⟩ := ih ⟨s, hst, hsn⟩
      refine ⟨a :: pre, f, rest, by rw [e]; rfl, ?_, hfn⟩
      intro x hx
      rcases List.mem_cons.mp hx with e2 | e2
      · subst e2; exact ha2
      · exact hp x e2

theorem exists_last_notNearZero (data : List (Vec3 α))
    (h : ∃ s ∈ data, nearZero s = false) :
    ∃ init l post, data = init ++ l :: post ∧ (∀ s ∈ post, nearZero s = true) ∧
      nearZero l = false := by
  obtain ⟨s, hs, hsn⟩ := h
  obtain ⟨pre, f, rest, e, hp, hfn⟩ :=
    exists_first_notNearZero data.reverse ⟨s, List.mem_reverse.mpr hs, hsn⟩
  refine ⟨rest.reverse, f, pre.reverse, ?_, ?_, hfn⟩
  · have := congrArg List.reverse e
    simpa using this
  · intro x hx
    exact hp x (List.mem_reverse.mp hx)

/-- Every vector with a sample that is not near-zero splits into a near-zero head
part, a run with both ends not near-zero, and a near-zero tail part. -/
theorem exists_run (data : List (Vec3 α)) (h : ∃ s ∈ data, nearZero s = false) :
    ∃ pre mid post rest init f l, data = pre ++ mid ++ post ∧ mid = f :: rest ∧
      mid = init ++ [l] ∧ (∀ s ∈ pre, nearZero s = true) ∧
      (∀ s ∈ post, nearZero s = true) ∧ nearZero f = false ∧ nearZero l = false := by
  obtain ⟨pre, f, rest, e, hp, hfn⟩ := exists_first_notNearZero data h
  obtain ⟨init, l, post, e2, hq, hln⟩ :=
    exists_last_notNearZero (f :: rest) ⟨f, List.mem_cons_self _ _, hfn⟩
  cases init with
  | nil =>
    simp only [List.nil_append, List.cons.injEq] at e2
    obtain ⟨e3, e4⟩ := e2
    subst e3 e4
    exact ⟨pre, [f], rest, [], [], f, f, by rw [e]; simp, rfl, rfl, hp, hq, hfn, hfn⟩
  | cons a init =>
    simp only [List.cons_append, List.cons.injEq] at e2
    obtain ⟨e3, e4⟩ := e2
    subst e3
    refine ⟨pre, f :: (init ++ [l]), post, init ++ [l], f :: init, f, l, ?_, rfl, rfl,
      hp, hq, hfn, hln⟩
    rw [e, e4]
    simp

theorem foldl_sumStep (l : List (α × α)) :
    ∀ s : Sums α, l.foldl sumStep s =
      { sum_a := s.sum_a + (l.map (fun p => p.1)).sum
        sum_b := s.sum_b + (l.map (fun p => p.2)).sum
        sum_ab := s.sum_ab + (l.map (fun p => p.1 * p.2)).sum
        sq_sum_a := s.sq_sum_a + (l.map (fun p => p.1 * p.1)).sum
        sq_sum_b := s.sq_sum_b + (l.map (fun p => p.2 * p.2)).sum } := by
  induction l with
  | nil => intro s; simp
  | cons p t ih =>
    intro s
    rw [List.foldl_cons, ih]
    simp only [sumStep, List.map_cons, List.sum_cons, add_assoc]

theorem zip_self_eq {β : Type} (a : List β) : a.zip a = a.map (fun v => (v, v)) := by
  induction a with
  | nil => rfl
  | cons v t ih => simp [ih]

theorem sumLoop_self (a : List α) :
    sumLoop a a =
      { sum_a := a.sum, sum_b := a.sum, sum_ab := (a.map (fun v => v * v)).sum
        sq_sum_a := (a.map (fun v => v * v)).sum
        sq_sum_b := (a.map (fun v => v * v)).sum } := by
  unfold sumLoop
  rw [foldl_sumStep, zip_self_eq]
  simp only [List.map_map, zero_add]
  simp [Function.comp_def]

theorem sum_sq_diff (v : α) (t : List α) :
    (t.map (fun y => (v - y) * (v - y))).sum =
      (t.length : α) * (v * v) - 2 * v * t.sum + (t.map (fun y => y * y)).sum := by
  induction t with
  | nil => simp
  | cons y t ih =>
    simp only [List.map_cons, List.sum_cons, List.length_cons, Nat.cast_add, Nat.cast_one, ih]
    ring

theorem spread_cons (v : α) (t : List α) :
    ((v :: t).length : α) * ((v :: t).map (fun y => y * y)).sum - (v :: t).sum * (v :: t).sum =
      ((t.length : α) * (t.map (fun y => y * y)).sum - t.sum * t.sum) +
        (t.map (fun y => (v - y) * (v - y))).sum := by
  rw [sum_sq_diff]
  simp only [List.map_cons, List.sum_cons, List.length_cons, Nat.cast_add, Nat.cast_one]
  ring

theorem sum_sq_diff_nonneg (v : α) (t : List α) :
    0 ≤ (t.map (fun y => (v - y) * (v - y))).sum := by
  apply List.sum_nonneg
  intro z hz
  obtain ⟨y, _, e⟩ := List.mem_map.mp hz
  rw [← e]
  exact mul_self_nonneg _

/-- The quantity `n * sq_sum_a - sum_a * sum_a` is never negative. -/
theorem spread_nonneg (a : List α) :
    0 ≤ (a.length : α) * (a.map (fun y => y * y)).sum - a.sum * a.sum := by
  induction a with
  | nil => simp
  | cons v t ih =>
    rw [spread_cons]
    exact add_nonneg ih (sum_sq_diff_nonneg v t)

/-- The quantity `n * sq_sum_a - sum_a * sum_a` is positive on a non-constant sequence. -/
theorem spread_pos (a : List α) (h : nonConstant a) :
    0 < (a.length : α) * (a.map (fun y => y * y)).sum - a.sum * a.sum := by
  induction a with
  | nil =>
    obtain ⟨u, hu, _⟩ := h
    simp at hu
  | cons v t ih =>
    rw [spread_cons]
    by_cases hall : ∀ y ∈ t, y = v
    · exfalso
      obtain ⟨u, hu, w, hw, huw⟩ := h
      have eu : u = v := by
        rcases List.mem_cons.mp hu with e | e
        · exact e
        · exact hall u e
      have ew : w = v := by
        rcases List.mem_cons.mp hw with e | e
        · exact e
        · exact hall w e
      exact huw (eu.trans ew.symm)
    · have hex : ∃ y ∈ t, y ≠ v := by
        by_contra hc
        apply hall
        intro y hy
        by_contra hn
        exact hc ⟨y, hy, hn⟩
      obtain ⟨y, hy, hyv⟩ := hex
      have hpos : 0 < (v - y) * (v - y) :=
        mul_self_pos.mpr (sub_ne_zero.mpr (Ne.symm hyv))
      have hmem : (v - y) * (v - y) ∈ t.map (fun y => (v - y) * (v - y)) :=
        List.mem_map.mpr ⟨y, hy, rfl⟩
      have hle : (v - y) * (v - y) ≤ (t.map (fun y => (v - y) * (v - y))).sum := by
        apply List.single_le_sum _ _ hmem
        intro z hz
        obtain ⟨y2, _, e⟩ := List.mem_map.mp hz
        rw [← e]
        exact mul_self_nonneg _
      have := spread_nonneg t
      linarith

/-- The correlation of a non-constant sequence with itself, given a `sqrt` that
inverts squaring on non-negative values. -/
theorem calcCorrelation_self (sqrt : α → α) (hs : ∀ v, 0 ≤ v → sqrt (v * v) = v)
    (calcError : Int) (a : List α) (h : nonConstant a) :
    calcCorrelation sqrt calcError a a = (FloatVal.fin 1, calcError) := by
  have hpos := spread_pos a h
  unfold calcCorrelation
  rw [if_neg (by simp), sumLoop_self]
  simp only
  unfold fsqrt
  rw [if_neg (not_lt.mpr (mul_self_nonneg _)), hs _ (le_of_lt hpos)]
  unfold fdiv
  simp only
  rw [if_neg (ne_of_gt hpos), div_self (ne_of_gt hpos)]

/-! ## Facts about `calcCorrelationVecs` and the unlock count -/

theorem calcCorrelation_snd_of_length_eq (sqrt : α → α) (calcError : Int) (a b : List α)
    (h : a.length = b.length) : (calcCorrelation sqrt calcError a b).2 = calcError := by
  unfold calcCorrelation
  rw [if_neg (by simpa using h)]

theorem calcCorrelation_fst_indep (sqrt : α → α) (c1 c2 : Int) (a b : List α) :
    (calcCorrelation sqrt c1 a b).1 = (calcCorrelation sqrt c2 a b).1 := by
  unfold calcCorrelation
  by_cases h : a.length ≠ b.length
  · rw [if_pos h, if_pos h]
  · rw [if_neg h, if_neg h]

/-- One axis of `calcCorrelationVecs`: both projections are cut to the shorter length. -/
theorem corrAxis_eq_take (sqrt : α → α) (calcError : Int) (vec1 vec2 : List (Vec3 α))
    (i : Nat) :
    corrAxis sqrt calcError vec1 vec2 i =
      calcCorrelation sqrt calcError
        ((axisOf vec1 i).take (min vec1.length vec2.length))
        ((axisOf vec2 i).take (min vec1.length vec2.length)) := by
  have h1 : (axisOf vec1 i).length = vec1.length := by simp [axisOf]
  have h2 : (axisOf vec2 i).length = vec2.length := by simp [axisOf]
  unfold corrAxis
  simp only [h1, h2]
  by_cases hgt : vec1.length > vec2.length
  · rw [if_pos hgt]
    have hm : min vec1.length vec2.length = vec2.length := min_eq_right (le_of_lt hgt)
    rw [hm]
    unfold resize
    rw [if_pos (by rw [h1]; exact le_of_lt hgt), List.take_of_length_le (le_of_eq h2)]
  · rw [if_neg hgt]
    have hm : min vec1.length vec2.length = vec1.length := min_eq_left (not_lt.mp hgt)
    rw [hm, List.take_of_length_le (le_of_eq h1)]
    by_cases hlt : vec2.length > vec1.length
    · rw [if_pos hlt]
      unfold resize
      rw [if_pos (by rw [h2]; exact le_of_lt hlt)]
    · rw [if_neg hlt, List.take_of_length_le (by rw [h2]; exact not_lt.mp hlt)]

theorem corrAxis_snd (sqrt : α → α) (calcError : Int) (vec1 vec2 : List (Vec3 α)) (i : Nat) :
    (corrAxis sqrt calcError vec1 vec2 i).2 = calcError := by
  rw [corrAxis_eq_take]
  apply calcCorrelation_snd_of_length_eq
  simp [axisOf]

/-- The function `calcCorrelationVecs` never raises the size-mismatch indicator. -/
theorem calcCorrelationVecs_snd (sqrt : α → α) (calcError : Int)
    (vec1 vec2 : List (Vec3 α)) :
    (calcCorrelationVecs sqrt calcError vec1 vec2).2 = calcError := by
  unfold calcCorrelationVecs
  simp only [corrAxis_snd]

theorem unlockCount_eq_three (r : Vec3 (FloatVal α)) :
    unlockCount r 0 = 3 ↔
      (r.x.gt CORRELATION_THRESHOLD = true ∧ r.y.gt CORRELATION_THRESHOLD = true ∧
        r.z.gt CORRELATION_THRESHOLD = true) := by
  have hr : List.range 3 = [0, 1, 2] := by decide
  unfold unlockCount
  rw [if_neg (by simp), hr]
  simp only [List.foldl, Vec3.get]
  by_cases h1 : r.x.gt CORRELATION_THRESHOLD = true <;>
    by_cases h2 : r.y.gt CORRELATION_THRESHOLD = true <;>
    by_cases h3 : r.z.gt CORRELATION_THRESHOLD = true <;> simp [h1, h2, h3]

theorem unlockOutcome_status (st : SysState α) (r : Vec3 (FloatVal α)) :
    (unlockOutcome st (r, 0)).status = "UNLOCK SUCCESS" ↔
      (r.x.gt CORRELATION_THRESHOLD = true ∧ r.y.gt CORRELATION_THRESHOLD = true ∧
        r.z.gt CORRELATION_THRESHOLD = true) := by
  rw [← unlockCount_eq_three]
  unfold unlockOutcome
  by_cases h : unlockCount r 0 = 3
  · simp [h]
  · simp only [h, if_false, iff_false]
    decide

/-! ## Facts about one pass of `rotationThread` -/

theorem flags_of_unlock (ev : Nat) (h : ev &&& UNLOCK_FLAG ≠ 0) :
    ev &&& (KEY_FLAG ||| UNLOCK_FLAG) ≠ 0 := by
  intro hc
  apply h
  apply Nat.eq_of_testBit_eq
  intro i
  have := congrArg (fun n => n.testBit i) hc
  simp only [Nat.testBit_and, Nat.zero_testBit, Bool.and_eq_false_imp] at this ⊢
  by_cases hb : ev.testBit i = true
  · have h2 := this hb
    by_cases hu : UNLOCK_FLAG.testBit i = true
    · have : (KEY_FLAG ||| UNLOCK_FLAG).testBit i = true := by
        rw [Nat.testBit_or, hu]; simp
      rw [this] at h2
      cases h2
    · simp [hu]
  · simp [hb]

theorem pass_unlock (sqrt : α → α) (st : SysState α) (ev : Nat) (recorded : List (Vec3 α))
    (hk : ev &&& KEY_FLAG = 0) (h : ev &&& UNLOCK_FLAG ≠ 0) :
    rotationThread sqrt st ev recorded =
      unlockBranch sqrt { st with status := "Recording complete" }
        (removeZeroData recorded) := by
  unfold rotationThread
  simp only [flags_of_unlock ev h, h, hk, ne_eq, not_false_eq_true, if_true, not_true_eq_false,
    if_false]

theorem unlockOutcome_failed (st : SysState α) (r : Vec3 (FloatVal α) × Int)
    (h : unlockCount r.1 r.2 ≠ 3) : (unlockOutcome st r).status = "UNLOCK FAILED" := by
  unfold unlockOutcome
  rw [if_neg h]

theorem gt_fin (v : α) :
    (FloatVal.fin v).gt CORRELATION_THRESHOLD = true ↔ (5033165 / 16777216 : α) < v := by
  simp [FloatVal.gt, CORRELATION_THRESHOLD]

theorem unlockBranch_of_empty (sqrt : α → α) (st : SysState α) (tempKey : List (Vec3 α))
    (h : st.gestureKey = []) :
    unlockBranch sqrt st tempKey =
      { st with unlockRecord := [], greenLed := 1, redLed := 0,
                status := "No key to match." } := by
  unfold unlockBranch
  simp [h]

theorem unlockOutcome_success (st : SysState α) (r : Vec3 (FloatVal α) × Int)
    (h : unlockCount r.1 r.2 = 3) :
    unlockOutcome st r =
      { st with calcError := r.2, unlockRecord := [], greenLed := 1, redLed := 0,
                status := "UNLOCK SUCCESS" } := by
  unfold unlockOutcome
  rw [if_pos h]

theorem unlockCount_ones :
    unlockCount (⟨FloatVal.fin 1, FloatVal.fin 1, FloatVal.fin 1⟩ : Vec3 (FloatVal α)) 0 = 3 := by
  rw [unlockCount_eq_three]
  simp only [gt_fin]
  norm_num

/-! ## The claims -/

/-- C1 (decision rule).  With a reference enrolled, the unlock branch is the count
and test `unlockOutcome` applied to what `calcCorrelationVecs` returned.  With
`calcError == 0` that test shows "UNLOCK SUCCESS" exactly when each of the three
coefficients compares greater than `CORRELATION_THRESHOLD`, the binary32 constant
`0.3f` = 5033165 / 2^24; for finite coefficients `rx, ry, rz` that is `rx > 0.3f` and
`ry > 0.3f` and `rz > 0.3f`.  The comparison is strict: three coefficients equal to
the constant are rejected.  The triple (0.9, 0.31, 0.29) is rejected and
(0.31, 0.31, 0.31) is accepted. -/
theorem C1_decision_rule (sqrt : α → α) (st : SysState α) (k : Vec3 α)
    (ks tempKey : List (Vec3 α)) (r : Vec3 (FloatVal α)) (rx ry rz : α) :
    (unlockBranch sqrt { st with gestureKey := k :: ks } tempKey =
      unlockOutcome { st with gestureKey := k :: ks }
        (calcCorrelationVecs sqrt st.calcError (k :: ks) tempKey)) ∧
    ((unlockOutcome st (r, 0)).status = "UNLOCK SUCCESS" ↔
      (r.x.gt CORRELATION_THRESHOLD = true ∧ r.y.gt CORRELATION_THRESHOLD = true ∧
        r.z.gt CORRELATION_THRESHOLD = true)) ∧
    ((unlockOutcome st (⟨FloatVal.fin rx, FloatVal.fin ry, FloatVal.fin rz⟩, 0)).status =
        "UNLOCK SUCCESS" ↔
      ((5033165 / 16777216 : α) < rx ∧ (5033165 / 16777216 : α) < ry ∧
        (5033165 / 16777216 : α) < rz)) ∧
    (unlockOutcome st
      (⟨FloatVal.fin (5033165 / 16777216), FloatVal.fin (5033165 / 16777216),
        FloatVal.fin (5033165 / 16777216)⟩, 0)).status = "UNLOCK FAILED" ∧
    (unlockOutcome st
      (⟨FloatVal.fin (9 / 10), FloatVal.fin (31 / 100), FloatVal.fin (29 / 100)⟩, 0)).status =
        "UNLOCK FAILED" ∧
    (unlockOutcome st
      (⟨FloatVal.fin (31 / 100), FloatVal.fin (31 / 100), FloatVal.fin (31 / 100)⟩, 0)).status =
        "UNLOCK SUCCESS" := by
  refine ⟨?_, unlockOutcome_status st r, ?_, ?_, ?_, ?_⟩
  · simp [unlockBranch]
  · rw [unlockOutcome_status]
    simp only [gt_fin]
  · apply unlockOutcome_failed
    simp only
    rw [Ne, unlockCount_eq_three]
    simp only [gt_fin]
    norm_num
  · apply unlockOutcome_failed
    simp only
    rw [Ne, unlockCount_eq_three]
    simp only [gt_fin]
    norm_num
  · rw [unlockOutcome_status]
    simp only [gt_fin]
    norm_num

/-- C3 (length equalisation).  On each axis the result of `calcCorrelationVecs` is
`calcCorrelation` applied to the first `m` values of the two projections, where `m`
is the smaller of the two lengths; the two arguments have length `m` (nothing is
padded), and `calcError` comes back unchanged. -/
theorem C3_length_equalisation (sqrt : α → α) (calcError : Int)
    (vec1 vec2 : List (Vec3 α)) (i : Fin 3) :
    ((calcCorrelationVecs sqrt calcError vec1 vec2).1.get i.val =
      (calcCorrelation sqrt calcError
        ((axisOf vec1 i.val).take (min vec1.length vec2.length))
        ((axisOf vec2 i.val).take (min vec1.length vec2.length))).1) ∧
    ((axisOf vec1 i.val).take (min vec1.length vec2.length)).length =
      min vec1.length vec2.length ∧
    ((axisOf vec2 i.val).take (min vec1.length vec2.length)).length =
      min vec1.length vec2.length ∧
    (calcCorrelationVecs sqrt calcError vec1 vec2).2 = calcError := by
  refine ⟨?_, by simp [axisOf], by simp [axisOf], calcCorrelationVecs_snd _ _ _ _⟩
  unfold calcCorrelationVecs
  simp only [corrAxis_snd]
  fin_cases i
  · simp only [Vec3.get]
    rw [corrAxis_eq_take]
  · simp only [Vec3.get]
    rw [corrAxis_eq_take]
  · simp only [Vec3.get]
    rw [corrAxis_eq_take]

/-- C4 (self-match).  For a `sqrt` that inverts squaring on non-negative values (as
the real square root does) and every non-constant sequence `a`, the quantity
`n * sq_sum_a - sum_a * sum_a` is positive and `calcCorrelation(a, a)` is 1, with
`calcError` untouched. -/
theorem C4_self_match (sqrt : α → α) (hs : ∀ v, 0 ≤ v → sqrt (v * v) = v)
    (calcError : Int) (a : List α) (h : nonConstant a) :
    0 < (a.length : α) * (sumLoop a a).sq_sum_a - (sumLoop a a).sum_a * (sumLoop a a).sum_a ∧
    calcCorrelation sqrt calcError a a = (FloatVal.fin 1, calcError) := by
  refine ⟨?_, calcCorrelation_self sqrt hs calcError a h⟩
  rw [sumLoop_self]
  exact spread_pos a h

/-- Witness for C4 over the reals with the real square root, at `a = [1, 2]`. -/
theorem C4_self_match_witness :
    nonConstant ([1, 2] : List ℝ) ∧
    calcCorrelation Real.sqrt 0 ([1, 2] : List ℝ) [1, 2] = (FloatVal.fin 1, 0) :=
  ⟨⟨1, by simp, 2, by simp, by norm_num⟩,
    (C4_self_match Real.sqrt (fun v hv => Real.sqrt_mul_self hv) 0 [1, 2]
      ⟨1, by simp, 2, by simp, by norm_num⟩).2⟩

/-- C5 (mismatch signalling).  When the lengths differ `calcCorrelation` returns 0.0
and sets `calcError` to -1, whatever the contents; when they are equal `calcError`
is left as it was.  Started from `calcError == 0`, the indicator is -1 afterwards
exactly when the lengths differ.  The call on `[1,2,3]` and `[1,2]` returns 0.0 with
`calcError == -1`. -/
theorem C5_mismatch_signalling (sqrt : α → α) (calcError : Int) (a b : List α) :
    (a.length ≠ b.length → calcCorrelation sqrt calcError a b = (FloatVal.fin 0, -1)) ∧
    (a.length = b.length → (calcCorrelation sqrt calcError a b).2 = calcError) ∧
    ((calcCorrelation sqrt 0 a b).2 = -1 ↔ a.length ≠ b.length) ∧
    calcCorrelation sqrt calcError [1, 2, 3] [1, 2] = (FloatVal.fin 0, -1) := by
  refine ⟨?_, calcCorrelation_snd_of_length_eq sqrt calcError a b, ?_, ?_⟩
  · intro h
    unfold calcCorrelation
    rw [if_pos h]
  · unfold calcCorrelation
    by_cases h : a.length ≠ b.length
    · simp [h]
    · simp [h]
  · unfold calcCorrelation
    simp

/-- Witness for C5 at `[1,2,3]` against `[1,2]` over the rationals. -/
theorem C5_mismatch_signalling_witness :
    ([1, 2, 3] : List ℚ).length ≠ ([1, 2] : List ℚ).length ∧
    calcCorrelation Rat.sqrt 0 ([1, 2, 3] : List ℚ) [1, 2] = (FloatVal.fin 0, -1) :=
  ⟨by decide, (C5_mismatch_signalling Rat.sqrt 0 [1, 2, 3] [1, 2]).1 (by decide)⟩

/-- C6 (trimming result).  When some sample is not near-zero, the input is a
near-zero head part, then the result of `removeZeroData`, then a near-zero tail part;
the first and the last sample of the result are not near-zero.  So the result is the
run of the input from its first to its last sample that is not near-zero, values and
order kept. -/
theorem C6_trim_result (data : List (Vec3 α)) (h : ∃ s ∈ data, nearZero s = false) :
    ∃ pre post, data = pre ++ removeZeroData data ++ post ∧
      (∀ s ∈ pre, nearZero s = true) ∧ (∀ s ∈ post, nearZero s = true) ∧
      (∃ f, (removeZeroData data).head? = some f ∧ nearZero f = false) ∧
      (∃ l, (removeZeroData data).getLast? = some l ∧ nearZero l = false) := by
  obtain ⟨pre, mid, post, rest, init, f, l, e, hf, hl, hp, hq, hfn, hln⟩ := exists_run data h
  have hr : removeZeroData data = mid := by
    rw [e]
    exact removeZeroData_run pre mid post rest init f l hf hl hp hq hfn hln
  refine ⟨pre, post, by rw [hr]; exact e, hp, hq, ⟨f, ?_, hfn⟩, ⟨l, ?_, hln⟩⟩
  · rw [hr, hf]
    rfl
  · rw [hr, hl]
    simp

/-- Witness for C6: two near-zero samples around a run that holds a near-zero
sample inside. -/
theorem C6_trim_result_witness :
    (∃ s ∈ ([⟨0, 0, 0⟩, ⟨1, 0, 0⟩, ⟨0, 0, 0⟩, ⟨0, 2, 0⟩, ⟨0, 0, 0⟩] : List (Vec3 ℚ)),
      nearZero s = false) ∧
    ∃ pre post,
      ([⟨0, 0, 0⟩, ⟨1, 0, 0⟩, ⟨0, 0, 0⟩, ⟨0, 2, 0⟩, ⟨0, 0, 0⟩] : List (Vec3 ℚ)) =
        pre ++ removeZeroData [⟨0, 0, 0⟩, ⟨1, 0, 0⟩, ⟨0, 0, 0⟩, ⟨0, 2, 0⟩, ⟨0, 0, 0⟩] ++ post ∧
      (∀ s ∈ pre, nearZero s = true) ∧ (∀ s ∈ post, nearZero s = true) ∧
      (∃ f, (removeZeroData
          ([⟨0, 0, 0⟩, ⟨1, 0, 0⟩, ⟨0, 0, 0⟩, ⟨0, 2, 0⟩, ⟨0, 0, 0⟩] : List (Vec3 ℚ))).head? =
            some f ∧ nearZero f = false) ∧
      (∃ l, (removeZeroData
          ([⟨0, 0, 0⟩, ⟨1, 0, 0⟩, ⟨0, 0, 0⟩, ⟨0, 2, 0⟩, ⟨0, 0, 0⟩] : List (Vec3 ℚ))).getLast? =
            some l ∧ nearZero l = false) :=
  ⟨⟨⟨1, 0, 0⟩, by simp, by norm_num [nearZero, zeroThreshold]⟩,
    C6_trim_result _ ⟨⟨1, 0, 0⟩, by simp, by norm_num [nearZero, zeroThreshold]⟩⟩

/-- C7 (all near-zero input), evaluated on the one-sample vector `[(0, 0, 0)]`:
every sample is near-zero, and `removeZeroData` leaves the vector as it is, so the
result is not the empty sequence. -/
theorem C7_all_near_zero_kept :
    (∀ s ∈ ([⟨0, 0, 0⟩] : List (Vec3 ℚ)), nearZero s = true) ∧
    removeZeroData ([⟨0, 0, 0⟩] : List (Vec3 ℚ)) = [⟨0, 0, 0⟩] ∧
    removeZeroData ([⟨0, 0, 0⟩] : List (Vec3 ℚ)) ≠ [] := by
  have hz : ∀ s ∈ ([⟨0, 0, 0⟩] : List (Vec3 ℚ)), nearZero s = true := by
    intro s hs
    rw [List.mem_singleton.mp hs]
    norm_num [nearZero, zeroThreshold]
  have he := removeZeroData_allNearZero _ hz
  refine ⟨hz, he, ?_⟩
  rw [he]
  exact List.cons_ne_nil _ _

/-- C8 (trim idempotence).  Applying `removeZeroData` to its own result changes
nothing. -/
theorem C8_trim_idempotent (data : List (Vec3 α)) :
    removeZeroData (removeZeroData data) = removeZeroData data := by
  by_cases hz : ∀ s ∈ data, nearZero s = true
  · rw [removeZeroData_allNearZero data hz, removeZeroData_allNearZero data hz]
  · have hz2 : ∃ s ∈ data, nearZero s = false := by
      by_contra hc
      apply hz
      intro s hs
      by_contra hn
      exact hc ⟨s, hs, by simpa using hn⟩
    obtain ⟨pre, mid, post, rest, init, f, l, e, hf, hl, hp, hq, hfn, hln⟩ :=
      exists_run data hz2
    have hr : removeZeroData data = mid := by
      rw [e]
      exact removeZeroData_run pre mid post rest init f l hf hl hp hq hfn hln
    rw [hr]
    have := removeZeroData_run [] mid [] rest init f l hf hl (by simp) (by simp) hfn hln
    simpa using this

/-- C10 (authenticate with no reference), evaluated from the start-up state with no
key.  The pass shows "No key to match.", leaves `gestureKey` empty and `calcError`
at 0, and sets green on, red off.  That is the lamp state of "UNLOCK SUCCESS"; the
state set with "LOCKED" at start-up and the state set with "UNLOCK FAILED" are both
red on, green off. -/
theorem C10_no_reference_lamps :
    (rotationThread Rat.sqrt (main bootState) UNLOCK_FLAG
      ([⟨1, 2, 3⟩] : List (Vec3 ℚ))).status = "No key to match." ∧
    (rotationThread Rat.sqrt (main bootState) UNLOCK_FLAG
      ([⟨1, 2, 3⟩] : List (Vec3 ℚ))).gestureKey = [] ∧
    (rotationThread Rat.sqrt (main bootState) UNLOCK_FLAG
      ([⟨1, 2, 3⟩] : List (Vec3 ℚ))).calcError = 0 ∧
    (rotationThread Rat.sqrt (main bootState) UNLOCK_FLAG
      ([⟨1, 2, 3⟩] : List (Vec3 ℚ))).greenLed = 1 ∧
    (rotationThread Rat.sqrt (main bootState) UNLOCK_FLAG
      ([⟨1, 2, 3⟩] : List (Vec3 ℚ))).redLed = 0 ∧
    (main ({ bootState with gestureKey := [⟨1, 2, 3⟩] } : SysState ℚ)).status = "LOCKED" ∧
    (main ({ bootState with gestureKey := [⟨1, 2, 3⟩] } : SysState ℚ)).greenLed = 0 ∧
    (main ({ bootState with gestureKey := [⟨1, 2, 3⟩] } : SysState ℚ)).redLed = 1 ∧
    (unlockOutcome (bootState : SysState ℚ)
      (⟨FloatVal.nan, FloatVal.nan, FloatVal.nan⟩, 0)).status = "UNLOCK FAILED" ∧
    (unlockOutcome (bootState : SysState ℚ)
      (⟨FloatVal.nan, FloatVal.nan, FloatVal.nan⟩, 0)).greenLed = 0 ∧
    (unlockOutcome (bootState : SysState ℚ)
      (⟨FloatVal.nan, FloatVal.nan, FloatVal.nan⟩, 0)).redLed = 1 ∧
    (unlockOutcome (bootState : SysState ℚ)
      (⟨FloatVal.fin 1, FloatVal.fin 1, FloatVal.fin 1⟩, 0)).status = "UNLOCK SUCCESS" ∧
    (unlockOutcome (bootState : SysState ℚ)
      (⟨FloatVal.fin 1, FloatVal.fin 1, FloatVal.fin 1⟩, 0)).greenLed = 1 ∧
    (unlockOutcome (bootState : SysState ℚ)
      (⟨FloatVal.fin 1, FloatVal.fin 1, FloatVal.fin 1⟩, 0)).redLed = 0 := by
  have e1 : rotationThread Rat.sqrt (main bootState) UNLOCK_FLAG
      ([⟨1, 2, 3⟩] : List (Vec3 ℚ)) =
      { gestureKey := [], unlockRecord := [], calcError := 0,
        redLed := 0, greenLed := 1, status := "No key to match." } := by
    rw [pass_unlock Rat.sqrt _ UNLOCK_FLAG _ (by decide) (by decide),
      unlockBranch_of_empty Rat.sqrt _ _ rfl]
    rfl
  have hf : unlockCount (⟨FloatVal.nan, FloatVal.nan, FloatVal.nan⟩ : Vec3 (FloatVal ℚ)) 0 ≠
      3 := by
    rw [Ne, unlockCount_eq_three]
    simp [FloatVal.gt]
  have e2 : unlockOutcome (bootState : SysState ℚ)
      (⟨FloatVal.nan, FloatVal.nan, FloatVal.nan⟩, 0) =
      { gestureKey := [], unlockRecord := [], calcError := 0,
        redLed := 1, greenLed := 0, status := "UNLOCK FAILED" } := by
    unfold unlockOutcome
    rw [if_neg hf]
    rfl
  have e3 : unlockOutcome (bootState : SysState ℚ)
      (⟨FloatVal.fin 1, FloatVal.fin 1, FloatVal.fin 1⟩, 0) =
      { gestureKey := [], unlockRecord := [], calcError := 0,
        redLed := 0, greenLed := 1, status := "UNLOCK SUCCESS" } := by
    rw [unlockOutcome_success _ _ unlockCount_ones]
    rfl
  rw [e1, e2, e3]
  exact ⟨rfl, rfl, rfl, rfl, rfl, rfl, rfl, rfl, rfl, rfl, rfl, rfl, rfl, rfl⟩

/-! ## Facts about `CalibrateRotationSensor` -/

theorem toInt16_add_left (a b : Int) : toInt16 (toInt16 a + b) = toInt16 (a + b) := by
  unfold toInt16
  omega

theorem toInt16_of_range (n : Int) (h1 : -32768 ≤ n) (h2 : n ≤ 32767) : toInt16 n = n := by
  unfold toInt16
  omega

theorem calibLoop_succ (st : MotionState) (read : Nat → RotationSensor_RawValues) (k : Nat) :
    calibLoop st read (k + 1) = calibStep read (calibLoop st read k) k := by
  unfold calibLoop
  rw [List.range_succ, List.foldl_append]
  rfl

/-- The exact (unbounded) sum of the first `k` readings on each axis. -/
theorem calibLoop_sums (st : MotionState) (read : Nat → RotationSensor_RawValues) (k : Nat) :
    (calibLoop st read k).sumX =
      toInt16 (((List.range k).map (fun i => (read i).x_axis_value)).sum) ∧
    (calibLoop st read k).sumY =
      toInt16 (((List.range k).map (fun i => (read i).y_axis_value)).sum) ∧
    (calibLoop st read k).sumZ =
      toInt16 (((List.range k).map (fun i => (read i).z_axis_value)).sum) := by
  induction k with
  | zero => exact ⟨rfl, rfl, rfl⟩
  | succ k ih =>
    obtain ⟨hx, hy, hz⟩ := ih
    rw [calibLoop_succ]
    simp only [calibStep, List.range_succ, List.map_append, List.sum_append, List.map_cons,
      List.map_nil, List.sum_cons, List.sum_nil, add_zero]
    rw [hx, hy, hz]
    exact ⟨toInt16_add_left _ _, toInt16_add_left _ _, toInt16_add_left _ _⟩

/-- The thresholds after `k ≥ 1` passes over readings that all equal `(vx, vy, vz)`. -/
theorem calibLoop_thresholds_const (st : MotionState) (read : Nat → RotationSensor_RawValues)
    (vx vy vz : Int) (k : Nat) (h : ∀ i, i < k + 1 → read i = ⟨vx, vy, vz⟩) :
    (calibLoop st read (k + 1)).x_axis_threshold = max st.x_axis_threshold vx ∧
    (calibLoop st read (k + 1)).y_axis_threshold = max st.y_axis_threshold vy ∧
    (calibLoop st read (k + 1)).z_axis_threshold = max st.z_axis_threshold vz := by
  induction k with
  | zero =>
    rw [calibLoop_succ]
    simp only [calibStep, h 0 (by omega)]
    exact ⟨rfl, rfl, rfl⟩
  | succ k ih =>
    obtain ⟨hx, hy, hz⟩ := ih (fun i hi => h i (by omega))
    rw [calibLoop_succ]
    simp only [calibStep, h (k + 1) (by omega)]
    rw [hx, hy, hz]
    simp only [max_assoc, max_self, and_self]

theorem sum_map_const (k : Nat) (v : Int) :
    ((List.range k).map (fun _ => v)).sum = k * v := by
  induction k with
  | zero => simp
  | succ k ih =>
    rw [List.range_succ, List.map_append, List.sum_append, ih]
    simp only [List.map_cons, List.map_nil, List.sum_cons, List.sum_nil, add_zero,
      Nat.cast_add, Nat.cast_one]
    ring

theorem sum_map_congr (k : Nat) (f g : Nat → Int) (h : ∀ i, i < k → f i = g i) :
    ((List.range k).map f).sum = ((List.range k).map g).sum := by
  congr 1
  apply List.map_congr_left
  intro i hi
  exact h i (List.mem_range.mp hi)

/-- The stored zero-rate sample in terms of the exact sum `S` of the 128 readings:
the sum is first reduced to 16 bits, then shifted. -/
theorem calibrate_samples (st : MotionState) (read : Nat → RotationSensor_RawValues) :
    (CalibrateRotationSensor st read).x_axis_sample =
      toInt16 (toInt16 (((List.range 128).map (fun i => (read i).x_axis_value)).sum) >>> (7 : Nat)) ∧
    (CalibrateRotationSensor st read).y_axis_sample =
      toInt16 (toInt16 (((List.range 128).map (fun i => (read i).y_axis_value)).sum) >>> (7 : Nat)) ∧
    (CalibrateRotationSensor st read).z_axis_sample =
      toInt16 (toInt16 (((List.range 128).map (fun i => (read i).z_axis_value)).sum) >>> (7 : Nat)) := by
  obtain ⟨hx, hy, hz⟩ := calibLoop_sums st read 128
  unfold CalibrateRotationSensor
  simp only [hx, hy, hz, and_self]

theorem shift7_mul (v : Int) : (128 * v) >>> (7 : Nat) = v := by
  rw [Int.shiftRight_eq_div_pow]
  norm_num

/-- Shifting and storing after a sum of 128 equal readings `v` with no 16-bit
overflow gives `v` back. -/
theorem sample_of_const (v : Int) (h1 : -256 ≤ v) (h2 : v ≤ 255) (S : Int)
    (hS : S = 128 * v) : toInt16 (toInt16 S >>> (7 : Nat)) = v := by
  subst hS
  rw [toInt16_of_range (128 * v) (by omega) (by omega), shift7_mul,
    toInt16_of_range v (by omega) (by omega)]

/-- Calibration over 128 readings that all equal `(vx, vy, vz)`, each value small
enough that the 16-bit sums do not overflow. -/
theorem calibrate_const (st : MotionState) (read : Nat → RotationSensor_RawValues)
    (vx vy vz : Int) (hx : -256 ≤ vx ∧ vx ≤ 255) (hy : -256 ≤ vy ∧ vy ≤ 255)
    (hz : -256 ≤ vz ∧ vz ≤ 255) (hread : ∀ i, i < 128 → read i = ⟨vx, vy, vz⟩) :
    CalibrateRotationSensor st read =
      { x_axis_threshold := max st.x_axis_threshold vx
        y_axis_threshold := max st.y_axis_threshold vy
        z_axis_threshold := max st.z_axis_threshold vz
        x_axis_sample := vx, y_axis_sample := vy, z_axis_sample := vz } := by
  obtain ⟨sx, sy, sz⟩ := calibrate_samples st read
  obtain ⟨tx, ty, tz⟩ := calibLoop_thresholds_const st read vx vy vz 127 hread
  have ex : ((List.range 128).map (fun i => (read i).x_axis_value)).sum = 128 * vx := by
    rw [sum_map_congr 128 _ (fun _ => vx) (fun i hi => by rw [hread i hi]), sum_map_const]
    rfl
  have ey : ((List.range 128).map (fun i => (read i).y_axis_value)).sum = 128 * vy := by
    rw [sum_map_congr 128 _ (fun _ => vy) (fun i hi => by rw [hread i hi]), sum_map_const]
    rfl
  have ez : ((List.range 128).map (fun i => (read i).z_axis_value)).sum = 128 * vz := by
    rw [sum_map_congr 128 _ (fun _ => vz) (fun i hi => by rw [hread i hi]), sum_map_const]
    rfl
  rw [sample_of_const vx hx.1 hx.2 _ ex] at sx
  rw [sample_of_const vy hy.1 hy.2 _ ey] at sy
  rw [sample_of_const vz hz.1 hz.2 _ ez] at sz
  have hthr : (CalibrateRotationSensor st read).x_axis_threshold =
      (calibLoop st read 128).x_axis_threshold ∧
      (CalibrateRotationSensor st read).y_axis_threshold =
      (calibLoop st read 128).y_axis_threshold ∧
      (CalibrateRotationSensor st read).z_axis_threshold =
      (calibLoop st read 128).z_axis_threshold := ⟨rfl, rfl, rfl⟩
  obtain ⟨ux, uy, uz⟩ := hthr
  rw [tx] at ux
  rw [ty] at uy
  rw [tz] at uz
  cases hc : CalibrateRotationSensor st read with
  | mk a1 a2 a3 a4 a5 a6 =>
    rw [hc] at sx sy sz ux uy uz
    simp only at sx sy sz ux uy uz
    rw [sx, sy, sz, ux, uy, uz]

/-- C11 (calibration on a constant stream), as amended.  For 128 identical readings
`(v, v, v)` with `-256 ≤ v ≤ 255`, `CalibrateRotationSensor` leaves the zero-rate
sample at `(v, v, v)` and each threshold at the larger of its previous value and `v`;
so the thresholds are `(v, v, v)` when the previous ones do not exceed `v`. -/
theorem C11_calibration_constant_stream (st : MotionState)
    (read : Nat → RotationSensor_RawValues) (v : Int) (h1 : -256 ≤ v) (h2 : v ≤ 255)
    (hread : ∀ i, i < 128 → read i = ⟨v, v, v⟩) :
    (CalibrateRotationSensor st read).x_axis_sample = v ∧
    (CalibrateRotationSensor st read).y_axis_sample = v ∧
    (CalibrateRotationSensor st read).z_axis_sample = v ∧
    (CalibrateRotationSensor st read).x_axis_threshold = max st.x_axis_threshold v ∧
    (CalibrateRotationSensor st read).y_axis_threshold = max st.y_axis_threshold v ∧
    (CalibrateRotationSensor st read).z_axis_threshold = max st.z_axis_threshold v ∧
    (st.x_axis_threshold ≤ v ∧ st.y_axis_threshold ≤ v ∧ st.z_axis_threshold ≤ v →
      CalibrateRotationSensor st read = ⟨v, v, v, v, v, v⟩) := by
  have e := calibrate_const st read v v v ⟨h1, h2⟩ ⟨h1, h2⟩ ⟨h1, h2⟩ hread
  rw [e]
  refine ⟨rfl, rfl, rfl, rfl, rfl, rfl, ?_⟩
  rintro ⟨a, b, c⟩
  rw [max_eq_right a, max_eq_right b, max_eq_right c]

/-- Witness for C11: the first calibration after start-up on readings `(5, 5, 5)`. -/
theorem C11_calibration_constant_stream_witness :
    -256 ≤ (5 : Int) ∧ (5 : Int) ≤ 255 ∧
    CalibrateRotationSensor motionBoot (fun _ => ⟨5, 5, 5⟩) = ⟨5, 5, 5, 5, 5, 5⟩ :=
  ⟨by decide, by decide,
    (C11_calibration_constant_stream motionBoot (fun _ => ⟨5, 5, 5⟩) 5 (by decide) (by decide)
      (fun _ _ => rfl)).2.2.2.2.2.2 ⟨by decide, by decide, by decide⟩⟩

/-- Counterexample to C11 as stated: the first calibration after start-up on
readings `(-1, -1, -1)`.  The zero-rate sample is `(-1, -1, -1)` but the thresholds
stay at 0, the value they had before. -/
theorem C11_negative_stream_counterexample :
    CalibrateRotationSensor motionBoot (fun _ => ⟨-1, -1, -1⟩) = ⟨0, 0, 0, -1, -1, -1⟩ ∧
    (CalibrateRotationSensor motionBoot (fun _ => ⟨-1, -1, -1⟩)).x_axis_threshold ≠ -1 := by
  have e := calibrate_const motionBoot (fun _ => ⟨-1, -1, -1⟩) (-1) (-1) (-1)
    ⟨by decide, by decide⟩ ⟨by decide, by decide⟩ ⟨by decide, by decide⟩ (fun _ _ => rfl)
  rw [e]
  exact ⟨by decide, by decide⟩

/-- C12 (offset as integer mean), evaluated on 128 readings `(256, 256, 256)` from
the start-up state: the exact sum is 32768 and its mean is 256, but the 16-bit sum
has wrapped to -32768 and the stored zero-rate sample is -256. -/
theorem C12_offset_wraps :
    ((List.range 128).map
      (fun i => ((fun _ => ⟨256, 256, 256⟩ : Nat → RotationSensor_RawValues) i).x_axis_value)).sum =
        32768 ∧
    ⌊((32768 : Int) : ℚ) / 128⌋ = 256 ∧
    (CalibrateRotationSensor motionBoot (fun _ => ⟨256, 256, 256⟩)).x_axis_sample = -256 ∧
    (CalibrateRotationSensor motionBoot (fun _ => ⟨256, 256, 256⟩)).y_axis_sample = -256 ∧
    (CalibrateRotationSensor motionBoot (fun _ => ⟨256, 256, 256⟩)).z_axis_sample = -256 := by
  have hs : ((List.range 128).map (fun _ => (256 : Int))).sum = 32768 := by
    rw [sum_map_const]
    rfl
  obtain ⟨sx, sy, sz⟩ := calibrate_samples motionBoot (fun _ => ⟨256, 256, 256⟩)
  simp only [hs] at sx sy sz
  refine ⟨hs, ?_, ?_, ?_, ?_⟩
  · norm_num
  · rw [sx]; decide
  · rw [sy]; decide
  · rw [sz]; decide

/-- The true part of the mean: with an exact sum `S` inside the 16-bit range the
stored value is the floor of `S / 128`. -/
theorem sample_of_no_overflow (S : Int) (h1 : -32768 ≤ S) (h2 : S ≤ 32767) :
    toInt16 (toInt16 S >>> (7 : Nat)) = ⌊(S : ℚ) / 128⌋ := by
  have e : ⌊(S : ℚ) / 128⌋ = S / 128 := by
    have := Rat.floor_intCast_div_natCast S 128
    simpa using this
  rw [e, toInt16_of_range S h1 h2, Int.shiftRight_eq_div_pow]
  have h3 : S / ((2 ^ 7 : Nat) : Int) = S / 128 := by norm_num
  rw [h3]
  apply toInt16_of_range <;> omega

/-- C13 (calibrated read).  On each axis, when `d = raw - sample` fits in 16 bits,
`FetchCalibratedRotationData` leaves 0 if `|d| < |threshold|` and `d` otherwise; the
axis result depends on that axis only. -/
theorem C13_calibrated_read (st : MotionState) (raw : RotationSensor_RawValues) :
    (-32768 ≤ raw.x_axis_value - st.x_axis_sample ∧
        raw.x_axis_value - st.x_axis_sample ≤ 32767 →
      (FetchCalibratedRotationData st raw).x_axis_value =
        if |raw.x_axis_value - st.x_axis_sample| < |st.x_axis_threshold| then 0
        else raw.x_axis_value - st.x_axis_sample) ∧
    (-32768 ≤ raw.y_axis_value - st.y_axis_sample ∧
        raw.y_axis_value - st.y_axis_sample ≤ 32767 →
      (FetchCalibratedRotationData st raw).y_axis_value =
        if |raw.y_axis_value - st.y_axis_sample| < |st.y_axis_threshold| then 0
        else raw.y_axis_value - st.y_axis_sample) ∧
    (-32768 ≤ raw.z_axis_value - st.z_axis_sample ∧
        raw.z_axis_value - st.z_axis_sample ≤ 32767 →
      (FetchCalibratedRotationData st raw).z_axis_value =
        if |raw.z_axis_value - st.z_axis_sample| < |st.z_axis_threshold| then 0
        else raw.z_axis_value - st.z_axis_sample) := by
  refine ⟨?_, ?_, ?_⟩ <;>
  · rintro ⟨h1, h2⟩
    simp only [FetchCalibratedRotationData, fetchAxis]
    rw [toInt16_of_range _ h1 h2]

/-- Witness for C13: offsets 10, thresholds 5, -5 and 0, readings 14, 15 and 10.
The first axis is zeroed (4 against 5), the second is kept (5 against 5), the third
is kept (0 against 0). -/
theorem C13_calibrated_read_witness :
    (-32768 ≤ (14 : Int) - 10 ∧ (14 : Int) - 10 ≤ 32767) ∧
    (-32768 ≤ (15 : Int) - 10 ∧ (15 : Int) - 10 ≤ 32767) ∧
    (FetchCalibratedRotationData ⟨5, -5, 0, 10, 10, 10⟩ ⟨14, 15, 10⟩).x_axis_value =
      (if |(14 : Int) - 10| < |(5 : Int)| then 0 else 14 - 10) ∧
    (FetchCalibratedRotationData ⟨5, -5, 0, 10, 10, 10⟩ ⟨14, 15, 10⟩).y_axis_value =
      (if |(15 : Int) - 10| < |(-5 : Int)| then 0 else 15 - 10) ∧
    FetchCalibratedRotationData ⟨5, -5, 0, 10, 10, 10⟩ ⟨14, 15, 10⟩ = ⟨0, 5, 0⟩ :=
  ⟨by decide, by decide,
    (C13_calibrated_read ⟨5, -5, 0, 10, 10, 10⟩ ⟨14, 15, 10⟩).1 (by decide),
    (C13_calibrated_read ⟨5, -5, 0, 10, 10, 10⟩ ⟨14, 15, 10⟩).2.1 (by decide),
    by decide⟩

/-! ## Facts about `touchThread` -/

/-- A touch inside the rectangle of the button labelled "RECORD" sets `UNLOCK_FLAG`
and nothing else. -/
theorem touchThread_record_rect (x y : Int) (hx : 60 ≤ x ∧ x ≤ 180) (hy : 80 ≤ y ∧ y ≤ 130) :
    touchThread 0 ⟨1, x, y⟩ = UNLOCK_FLAG := by
  have h1 : checkButtonTouch x y btn2X btn2Y btn1Width btn1Height = false := by
    simp [checkButtonTouch, btn2X, btn2Y, btn1Width, btn1Height]
    omega
  have h2 : checkButtonTouch x y btn1X btn1Y btn2Width btn2Height = true := by
    simp [checkButtonTouch, btn1X, btn1Y, btn2Width, btn2Height]
    omega
  simp only [touchThread, h1, h2]
  decide

/-- A touch inside the rectangle of the button labelled "UNLOCK" sets `KEY_FLAG` and
nothing else. -/
theorem touchThread_unlock_rect (x y : Int) (hx : 60 ≤ x ∧ x ≤ 180) (hy : 180 ≤ y ∧ y ≤ 230) :
    touchThread 0 ⟨1, x, y⟩ = KEY_FLAG := by
  have h1 : checkButtonTouch x y btn2X btn2Y btn1Width btn1Height = true := by
    simp [checkButtonTouch, btn2X, btn2Y, btn1Width, btn1Height]
    omega
  have h2 : checkButtonTouch x y btn1X btn1Y btn2Width btn2Height = false := by
    simp [checkButtonTouch, btn1X, btn1Y, btn2Width, btn2Height]
    omega
  simp only [touchThread, h1, h2]
  decide

/-- C14 (button to signal), evaluated with no flag pending.  The point (100, 100)
lies in the rectangle of the button labelled "RECORD" and the pass raises
`UNLOCK_FLAG` only; the point (100, 200) lies in the rectangle of the button
labelled "UNLOCK" and the pass raises `KEY_FLAG` only; the point (10, 10) lies in
neither and no flag is raised. -/
theorem C14_buttons_swapped :
    btn1Label = "RECORD" ∧ btn2Label = "UNLOCK" ∧
    checkButtonTouch 100 100 btn1X btn1Y btn1Width btn1Height = true ∧
    touchThread 0 ⟨1, 100, 100⟩ = UNLOCK_FLAG ∧
    touchThread 0 ⟨1, 100, 100⟩ &&& KEY_FLAG = 0 ∧
    checkButtonTouch 100 200 btn2X btn2Y btn2Width btn2Height = true ∧
    touchThread 0 ⟨1, 100, 200⟩ = KEY_FLAG ∧
    touchThread 0 ⟨1, 100, 200⟩ &&& UNLOCK_FLAG = 0 ∧
    touchThread 0 ⟨1, 10, 10⟩ = 0 := by
  decide

/-! ## Facts about a constant axis -/

end Sentry
